import Mathlib

/-!
Shallow embedding of the messaging service (`src/app.py`): a Flask/Socket.IO
chat relay backed by Postgres tables `users`, `conversations`, `messages`.
The database is modelled as explicit list-of-rows state; the SQL statements
of each handler are translated into list operations; Python exceptions are
modelled with `Except`.  The Socket.IO side (rooms, emits) is modelled with
an explicit membership registry and an event trace.
-/

namespace MessagingService

/-- A row of the `users` table (`id TEXT PRIMARY KEY, name TEXT NOT NULL`). -/
structure User where
  id : String
  name : String
  deriving DecidableEq, Repr

/-- A row of the `conversations` table (`id SERIAL, user1_id, user2_id`,
`UNIQUE (user1_id, user2_id)`). -/
structure Conversation where
  id : Nat
  user1_id : String
  user2_id : String
  deriving DecidableEq, Repr

/-- A row of the `messages` table (`id SERIAL, conversation_id INTEGER,
sender_id TEXT, text TEXT, created_at TIMESTAMPTZ`); the timestamp is
abstracted to a logical clock value. -/
structure Message where
  id : Nat
  conversation_id : Int
  sender_id : String
  text : String
  created_at : Nat
  deriving DecidableEq, Repr

/-- The committed database state.  `nextConvId` / `nextMsgId` model the two
`SERIAL` sequences; `clock` models `NOW()`. -/
structure DBState where
  users : List User
  conversations : List Conversation
  messages : List Message
  nextConvId : Nat
  nextMsgId : Nat
  clock : Nat
  deriving DecidableEq, Repr

/-- Fresh database right after `init_db` (SERIAL sequences start at 1). -/
def initialState : DBState :=
  { users := [], conversations := [], messages := [],
    nextConvId := 1, nextMsgId := 1, clock := 0 }

/-- `normalize_pair` (app.py:108-112): order the pair so `(a,b) == (b,a)`.
Python compares strings lexicographically by code point; Lean's `LT String`
is by definition the lexicographic order on `String.data`, stated here at
the `data` level so the comparison is kernel-computable
(`String.lt_iff_toList_lt` identifies the two). -/
def normalize_pair (a b : String) : String × String :=
  if a.data < b.data then (a, b) else (b, a)

/-- `conv_room` (app.py:115-119): Socket.IO room name for a conversation id. -/
def conv_room (conv_id : Int) : String :=
  "conv_" ++ toString conv_id

/-- `INSERT INTO users ... ON CONFLICT (id) DO NOTHING` (app.py:195-196,
316-319): append the row unless the primary key is already present. -/
def upsertUser (users : List User) (uid name : String) : List User :=
  if users.any (fun u => u.id == uid) then users else users ++ [⟨uid, name⟩]

/-- `SELECT id FROM conversations WHERE user1_id=%s AND user2_id=%s`
(app.py:200-204). -/
def findConversation (convs : List Conversation) (u1 u2 : String) :
    Option Conversation :=
  convs.find? (fun c => c.user1_id == u1 && c.user2_id == u2)

deriving instance DecidableEq for Except

/-- Python exceptions and database errors surfaced by the handlers. -/
inductive PyErr
  | typeError
  | valueError
  | fkViolation
  | negativeLimit
  deriving DecidableEq, Repr

/-- A JSON value as it arrives in a Socket.IO event payload: `data.get(k)`
yields `None` when the key is absent, else the stored value. -/
inductive PyVal
  | vnone
  | vint (n : Int)
  | vstr (s : String)
  deriving DecidableEq, Repr

/-- Python `str.strip()`: remove leading and trailing whitespace. -/
def pyStrip (s : String) : String :=
  ⟨((s.data.dropWhile Char.isWhitespace).reverse.dropWhile
      Char.isWhitespace).reverse⟩

/-- Decimal digit run of Python `int(str)`: all characters must be digits
and at least one must be present. -/
def parseDigits (ds : List Char) : Option Nat :=
  if ds.isEmpty then none
  else if ds.all Char.isDigit then
    some (ds.foldl (fun n c => n * 10 + (c.toNat - 48)) 0)
  else none

/-- Python `int(str)`: strip whitespace, optional sign, decimal digits;
`none` models the `ValueError` raised on anything else. -/
def pyIntParse (s : String) : Option Int :=
  match (pyStrip s).data with
  | [] => none
  | '-' :: ds => (parseDigits ds).map (fun n => -(n : Int))
  | '+' :: ds => (parseDigits ds).map (fun n => (n : Int))
  | ds => (parseDigits ds).map (fun n => (n : Int))

/-- Python `int(x)`: identity on ints, decimal parse on strings raising
`ValueError` on failure, `TypeError` on `None`. -/
def pyInt : PyVal → Except PyErr Int
  | .vnone => .error .typeError
  | .vint n => .ok n
  | .vstr s =>
      match pyIntParse s with
      | some n => .ok n
      | none => .error .valueError

/-- Result of the `GET /conversations/direct` route. -/
inductive ConvResult
  | badRequest (error : String)
  | ok (conversation_id : Nat) (user1_id user2_id : String)
  deriving DecidableEq, Repr

/-- `get_or_create_direct_conversation` (app.py:176-217): validate the two
query parameters (missing or empty is falsy, hence 400), normalize the pair,
upsert both users, then find-or-insert the conversation row. -/
def get_or_create_direct_conversation (st : DBState)
    (me other : Option String) : ConvResult × DBState :=
  match me, other with
  | some cu, some ou =>
      if cu = "" ∨ ou = "" then
        (.badRequest "me and other query params are required", st)
      else
        let p := normalize_pair cu ou
        let u1 := p.1
        let u2 := p.2
        let users := upsertUser (upsertUser st.users u1 u1) u2 u2
        match findConversation st.conversations u1 u2 with
        | some c =>
            (.ok c.id u1 u2, { st with users := users })
        | none =>
            (.ok st.nextConvId u1 u2,
              { st with users := users,
                        conversations :=
                          st.conversations ++ [⟨st.nextConvId, u1, u2⟩],
                        nextConvId := st.nextConvId + 1 })
  | _, _ => (.badRequest "me and other query params are required", st)

/-- Rows of `messages` belonging to one conversation, in table (append)
order: `WHERE conversation_id=%s` (app.py:233, 277). -/
def convMessages (st : DBState) (cid : Int) : List Message :=
  st.messages.filter (fun m => m.conversation_id == cid)

/-- Insertion step of `ORDER BY id DESC`: place `m` before the first row
whose id is not larger. -/
def insertDesc (m : Message) : List Message → List Message
  | [] => [m]
  | x :: xs => if x.id ≤ m.id then m :: x :: xs else x :: insertDesc m xs

/-- `ORDER BY id DESC` (app.py:234, 278): sort rows by descending id. -/
def sortByIdDesc : List Message → List Message
  | [] => []
  | m :: ms => insertDesc m (sortByIdDesc ms)

/-- The shared read query of `get_messages` and `handle_join_conversation`
(app.py:229-238 and 273-282 are the same `SELECT ... ORDER BY id DESC
LIMIT n` followed by python-side `reversed(rows)`): last `n` rows by id,
returned oldest first. -/
def recentMessages (st : DBState) (cid : Int) (n : Nat) : List Message :=
  (((sortByIdDesc (convMessages st cid)).take n).reverse)

/-- `get_messages` after the `limit` value is known (app.py:227-251):
Postgres rejects a negative `LIMIT`; otherwise the last `limit` rows are
fetched newest-first and reversed to oldest-first.  There is no clamping. -/
def get_messages_core (st : DBState) (cid : Int) (limit : Int) :
    Except PyErr (List Message) :=
  if limit < 0 then .error .negativeLimit
  else .ok (recentMessages st cid limit.toNat)

/-- `get_messages` (app.py:220-251): `limit = int(request.args.get("limit",
50))` then the query; an unparsable `limit` string raises `ValueError`. -/
def get_messages (st : DBState) (conv_id : Nat) (limitParam : Option String) :
    Except PyErr (List Message) :=
  match limitParam with
  | none => get_messages_core st (conv_id : Int) 50
  | some s =>
      match pyInt (.vstr s) with
      | .ok l => get_messages_core st (conv_id : Int) l
      | .error e => .error e

/-- A live Socket.IO connection. -/
abbrev ConnId := Nat

/-- The room registry: the set of (connection, room) memberships held by the
Socket.IO server, as a list of pairs. -/
abbrev RoomRegistry := List (ConnId × String)

/-- `join_room` (flask_socketio): register the connection in the room;
idempotent. -/
def join_room (reg : RoomRegistry) (conn : ConnId) (room : String) :
    RoomRegistry :=
  if (conn, room) ∈ reg then reg else reg ++ [(conn, room)]

/-- Connections currently joined to a room: the receivers of a
room-targeted `emit`. -/
def roomMembers (reg : RoomRegistry) (room : String) : List ConnId :=
  (reg.filter (fun p => p.2 == room)).map (fun p => p.1)

/-- The wire payload of a `new_message` emit (app.py:336-342). -/
structure MsgPayload where
  id : Nat
  conversation_id : Int
  sender : String
  text : String
  created_at : Nat
  deriving DecidableEq, Repr

/-- An outbound Socket.IO event: `chat_history` goes only to the joining
connection, `new_message` is fanned out to the members of a room. -/
inductive Event
  | chat_history (conversation_id : Int) (messages : List Message)
      (recipient : ConnId)
  | new_message (payload : MsgPayload) (room : String)
      (deliveredTo : List ConnId)
  deriving DecidableEq, Repr

/-- One observable step of a handler: a database transaction commit (making
the given state durable) or an event emit. -/
inductive Step
  | commit (db : DBState)
  | emit (ev : Event)
  deriving DecidableEq, Repr

/-- Payload of a `join_conversation` event (app.py:262). -/
structure JoinData where
  conversation_id : PyVal
  user_id : PyVal
  deriving DecidableEq, Repr

/-- Payload of a `send_message` event (app.py:303); `sender_id` and `text`
arrive as strings or are absent/None. -/
structure SendData where
  conversation_id : PyVal
  sender_id : Option String
  text : Option String
  deriving DecidableEq, Repr

/-- Result of `handle_join_conversation`: the updated registry, the emitted
events, and normal return or a raised exception. -/
structure JoinOutcome where
  registry : RoomRegistry
  emits : List Event
  result : Except PyErr Unit
  deriving DecidableEq, Repr

/-- Result of `handle_send_message`: the ordered trace of commits and
emits, the final committed database state, and normal return or a raised
exception. -/
structure SendOutcome where
  trace : List Step
  db : DBState
  result : Except PyErr Unit
  deriving DecidableEq, Repr

/-- `handle_join_conversation` (app.py:258-296): coerce the conversation id
with `int(...)` (raising on bad input before anything else), join the room,
query the last 50 messages, and emit `chat_history` to the caller only. -/
def handle_join_conversation (st : DBState) (reg : RoomRegistry)
    (conn : ConnId) (data : JoinData) : JoinOutcome :=
  match pyInt data.conversation_id with
  | .error e => ⟨reg, [], .error e⟩
  | .ok conv_id =>
      ⟨join_room reg conn (conv_room conv_id),
       [Event.chat_history conv_id (recentMessages st conv_id 50) conn],
       Except.ok ()⟩

/-- Does the `messages` foreign key on `conversation_id` accept this id
(app.py:86)? -/
def conversationExists (st : DBState) (cid : Int) : Bool :=
  st.conversations.any (fun c => (c.id : Int) == cid)

/-- The transaction of `handle_send_message` (app.py:316-330): upsert the
sender into `users`, insert the message row with the next serial id, and
commit. -/
def appendMessage (st : DBState) (cid : Int) (sender text : String) :
    DBState :=
  { st with users := upsertUser st.users sender sender,
            messages := st.messages ++ [⟨st.nextMsgId, cid, sender, text, st.clock⟩],
            nextMsgId := st.nextMsgId + 1,
            clock := st.clock + 1 }

/-- The `new_message` wire payload built at app.py:336-342 for the freshly
inserted row. -/
def messagePayload (st : DBState) (cid : Int) (sender text : String) :
    MsgPayload :=
  ⟨st.nextMsgId, cid, sender, text, st.clock⟩

/-- `handle_send_message` (app.py:299-347): coerce the conversation id with
`int(...)`; silently drop when `sender` is falsy (absent or the empty
string — note no trim) or when the trimmed text is empty; otherwise run the
insert transaction (the `messages` foreign key raises when the conversation
does not exist, aborting the transaction so nothing is persisted), commit,
and only then emit `new_message` to every current member of the room. -/
def handle_send_message (st : DBState) (reg : RoomRegistry)
    (data : SendData) : SendOutcome :=
  match pyInt data.conversation_id with
  | .error e => ⟨[], st, .error e⟩
  | .ok conv_id =>
      match data.sender_id with
      | none => ⟨[], st, .ok ()⟩
      | some sender =>
          let text := pyStrip (data.text.getD "")
          if sender = "" ∨ text = "" then ⟨[], st, .ok ()⟩
          else if conversationExists st conv_id then
            let st' := appendMessage st conv_id sender text
            ⟨[Step.commit st',
              Step.emit (Event.new_message (messagePayload st conv_id sender text)
                (conv_room conv_id) (roomMembers reg (conv_room conv_id)))],
             st', Except.ok ()⟩
          else ⟨[], st, .error .fkViolation⟩

/-- The wire payload corresponds to a row durably present in a database
state. -/
def persistedIn (p : MsgPayload) (db : DBState) : Prop :=
  ∃ m ∈ db.messages, m.id = p.id ∧ m.conversation_id = p.conversation_id ∧
    m.sender_id = p.sender ∧ m.text = p.text

/-- Every `new_message` emit in a trace is preceded by a commit of a state
already containing that message. -/
def broadcastAfterPersist (tr : List Step) : Prop :=
  ∀ (n : Nat) p room conns,
    tr[n]? = some (Step.emit (Event.new_message p room conns)) →
    ∃ (k : Nat) (db : DBState),
      k < n ∧ tr[k]? = some (Step.commit db) ∧ persistedIn p db

/-- Message rows are strictly ascending by id (append-only order). -/
def ascendingIds (l : List Message) : Prop :=
  l.Pairwise (fun a b => a.id < b.id)

/-- At most one `conversations` row per ordered pair — the
`UNIQUE (user1_id, user2_id)` constraint (app.py:73). -/
def uniquePairs (convs : List Conversation) : Prop :=
  convs.Pairwise (fun c d => ¬ (c.user1_id = d.user1_id ∧ c.user2_id = d.user2_id))

/-! ### Order helpers for `normalize_pair` -/

/-- The comparison performed by `normalize_pair` is exactly the `String`
order. -/
theorem data_lt_iff (a b : String) : a.data < b.data ↔ a < b :=
  Iff.symm String.lt_iff_toList_lt

theorem normalize_pair_comm (a b : String) :
    normalize_pair a b = normalize_pair b a := by
  unfold normalize_pair
  by_cases hab : a.data < b.data
  · by_cases hba : b.data < a.data
    · exact absurd ((data_lt_iff b a).mp hba)
        (lt_asymm ((data_lt_iff a b).mp hab))
    · rw [if_pos hab, if_neg hba]
  · by_cases hba : b.data < a.data
    · rw [if_neg hab, if_pos hba]
    · have : a = b := le_antisymm
        (le_of_not_lt fun h => hba ((data_lt_iff b a).mpr h))
        (le_of_not_lt fun h => hab ((data_lt_iff a b).mpr h))
      rw [if_neg hab, if_neg hba, this]

theorem normalize_pair_fst_le_snd (a b : String) :
    (normalize_pair a b).1 ≤ (normalize_pair a b).2 := by
  unfold normalize_pair
  by_cases hab : a.data < b.data
  · rw [if_pos hab]
    exact le_of_lt ((data_lt_iff a b).mp hab)
  · rw [if_neg hab]
    exact le_of_not_lt fun h => hab ((data_lt_iff a b).mpr h)

theorem normalize_pair_fst_lt_snd (a b : String) (hne : a ≠ b) :
    (normalize_pair a b).1 < (normalize_pair a b).2 := by
  unfold normalize_pair
  by_cases hab : a.data < b.data
  · rw [if_pos hab]
    exact (data_lt_iff a b).mp hab
  · rw [if_neg hab]
    refine (lt_or_gt_of_ne hne).resolve_left fun h => hab ?_
    exact (data_lt_iff a b).mpr h

theorem normalize_pair_self (a : String) : normalize_pair a a = (a, a) := by
  unfold normalize_pair
  rw [if_neg (lt_irrefl a.data)]

/-- The whole `GET /conversations/direct` handler is symmetric in its two
query parameters. -/
theorem get_or_create_comm (st : DBState) (me other : Option String) :
    get_or_create_direct_conversation st me other =
      get_or_create_direct_conversation st other me := by
  rcases me with _ | cu <;> rcases other with _ | ou <;>
    simp only [get_or_create_direct_conversation]
  by_cases h : cu = "" ∨ ou = ""
  · rw [if_pos h, if_pos (Or.symm h)]
  · rw [if_neg h, if_neg fun hc => h (Or.symm hc), normalize_pair_comm]

/-! ### Branch equations for `handle_send_message` -/

theorem hsm_of_pyInt_error (st : DBState) (reg : RoomRegistry)
    (data : SendData) (e : PyErr)
    (h : pyInt data.conversation_id = .error e) :
    handle_send_message st reg data = ⟨[], st, .error e⟩ := by
  simp only [handle_send_message, h]

theorem hsm_drop (st : DBState) (reg : RoomRegistry) (data : SendData)
    (cid : Int) (hci : pyInt data.conversation_id = .ok cid)
    (h : data.sender_id = none ∨ data.sender_id = some "" ∨
         pyStrip (data.text.getD "") = "") :
    handle_send_message st reg data = ⟨[], st, .ok ()⟩ := by
  rcases h with h | h | h
  · simp only [handle_send_message, hci, h]
  · simp only [handle_send_message, hci, h]
    rw [if_pos (Or.inl trivial)]
  · cases hs : data.sender_id with
    | none => simp only [handle_send_message, hci, hs]
    | some s =>
        simp only [handle_send_message, hci, hs]
        rw [if_pos (Or.inr h)]

theorem hsm_success (st : DBState) (reg : RoomRegistry) (data : SendData)
    (cid : Int) (s : String) (hci : pyInt data.conversation_id = .ok cid)
    (hs : data.sender_id = some s) (hsne : s ≠ "")
    (htne : pyStrip (data.text.getD "") ≠ "")
    (hex : conversationExists st cid = true) :
    handle_send_message st reg data =
      ⟨[Step.commit (appendMessage st cid s (pyStrip (data.text.getD ""))),
        Step.emit (Event.new_message
          (messagePayload st cid s (pyStrip (data.text.getD "")))
          (conv_room cid) (roomMembers reg (conv_room cid)))],
       appendMessage st cid s (pyStrip (data.text.getD "")),
       Except.ok ()⟩ := by
  simp only [handle_send_message, hci, hs]
  rw [if_neg (not_or.mpr ⟨hsne, htne⟩), if_pos hex]

theorem hsm_fk (st : DBState) (reg : RoomRegistry) (data : SendData)
    (cid : Int) (s : String) (hci : pyInt data.conversation_id = .ok cid)
    (hs : data.sender_id = some s) (hsne : s ≠ "")
    (htne : pyStrip (data.text.getD "") ≠ "")
    (hex : conversationExists st cid = false) :
    handle_send_message st reg data = ⟨[], st, .error .fkViolation⟩ := by
  simp only [handle_send_message, hci, hs]
  rw [if_neg (not_or.mpr ⟨hsne, htne⟩), if_neg (by rw [hex]; exact Bool.false_ne_true)]

/-! ### The read path: `ORDER BY id DESC LIMIT n` then reverse -/

theorem insertDesc_eq_append (m : Message) (t : List Message)
    (h : ∀ x ∈ t, ¬ x.id ≤ m.id) : insertDesc m t = t ++ [m] := by
  induction t with
  | nil => rfl
  | cons x xs ih =>
      unfold insertDesc
      rw [if_neg (h x (List.mem_cons_self x xs))]
      rw [ih fun y hy => h y (List.mem_cons_of_mem x hy)]
      simp

/-- On a strictly ascending list, descending sort is exactly reversal. -/
theorem sortByIdDesc_of_ascending (l : List Message) (h : ascendingIds l) :
    sortByIdDesc l = l.reverse := by
  induction l with
  | nil => rfl
  | cons m ms ih =>
      rw [ascendingIds, List.pairwise_cons] at h
      unfold sortByIdDesc
      rw [ih h.2, insertDesc_eq_append m ms.reverse
        (fun x hx => Nat.not_le.mpr (h.1 x (List.mem_reverse.mp hx)))]
      simp

theorem ascendingIds_convMessages (st : DBState) (cid : Int)
    (h : ascendingIds st.messages) : ascendingIds (convMessages st cid) :=
  List.Pairwise.sublist (List.filter_sublist st.messages) h

theorem recentMessages_suffix (st : DBState) (cid : Int) (n : Nat)
    (h : ascendingIds st.messages) :
    recentMessages st cid n <:+ convMessages st cid := by
  unfold recentMessages
  rw [sortByIdDesc_of_ascending _ (ascendingIds_convMessages st cid h)]
  rw [← List.reverse_prefix, List.reverse_reverse]
  exact List.take_prefix n (convMessages st cid).reverse

theorem recentMessages_length_le (st : DBState) (cid : Int) (n : Nat) :
    (recentMessages st cid n).length ≤ n := by
  unfold recentMessages
  rw [List.length_reverse]
  exact (List.length_take n _).trans_le (min_le_left n _)

theorem recentMessages_ascending (st : DBState) (cid : Int) (n : Nat)
    (h : ascendingIds st.messages) :
    ascendingIds (recentMessages st cid n) :=
  List.Pairwise.sublist (recentMessages_suffix st cid n h).sublist
    (ascendingIds_convMessages st cid h)

theorem get_messages_core_eq (st : DBState) (cid : Int) (n : Nat) :
    get_messages_core st cid (n : Int) = .ok (recentMessages st cid n) := by
  unfold get_messages_core
  rw [if_neg (by omega), show ((n : Int)).toNat = n by omega]

/-! ### Upsert and find-or-create behaviour -/

theorem upsertUser_of_any (us : List User) (uid nm : String)
    (h : us.any (fun u => u.id == uid) = true) : upsertUser us uid nm = us := by
  unfold upsertUser
  rw [if_pos h]

theorem upsertUser_any_self (us : List User) (uid nm : String) :
    (upsertUser us uid nm).any (fun u => u.id == uid) = true := by
  unfold upsertUser
  by_cases h : us.any (fun u => u.id == uid) = true
  · rw [if_pos h]
    exact h
  · rw [if_neg h]
    simp

theorem upsertUser_any_mono (us : List User) (uid nm : String)
    (p : User → Bool) (h : us.any p = true) :
    (upsertUser us uid nm).any p = true := by
  unfold upsertUser
  by_cases hm : us.any (fun u => u.id == uid) = true
  · rw [if_pos hm]
    exact h
  · rw [if_neg hm]
    simp only [List.any_append, h, Bool.true_or]

/-- The user upserts of `get_or_create_direct_conversation` are idempotent:
running the pair of upserts a second time changes nothing. -/
theorem upsertPair_idem (us : List User) (u1 u2 : String) :
    upsertUser (upsertUser (upsertUser (upsertUser us u1 u1) u2 u2) u1 u1)
        u2 u2 =
      upsertUser (upsertUser us u1 u1) u2 u2 := by
  rw [upsertUser_of_any _ u1 u1
    (upsertUser_any_mono _ u2 u2 _ (upsertUser_any_self us u1 u1))]
  rw [upsertUser_of_any _ u2 u2 (upsertUser_any_self _ u2 u2)]

theorem goc_badRequest_left (st : DBState) (other : Option String) :
    get_or_create_direct_conversation st none other =
      (.badRequest "me and other query params are required", st) := by
  rcases other with _ | ou <;> rfl

theorem goc_badRequest_right (st : DBState) (me : Option String) :
    get_or_create_direct_conversation st me none =
      (.badRequest "me and other query params are required", st) := by
  rcases me with _ | cu <;> rfl

theorem goc_badRequest_blank (st : DBState) (cu ou : String)
    (h : cu = "" ∨ ou = "") :
    get_or_create_direct_conversation st (some cu) (some ou) =
      (.badRequest "me and other query params are required", st) := by
  simp only [get_or_create_direct_conversation]
  rw [if_pos h]

theorem goc_found (st : DBState) (cu ou u1 u2 : String) (c : Conversation)
    (hcu : cu ≠ "") (hou : ou ≠ "")
    (hp : normalize_pair cu ou = (u1, u2))
    (hf : findConversation st.conversations u1 u2 = some c) :
    get_or_create_direct_conversation st (some cu) (some ou) =
      (.ok c.id u1 u2,
       { st with users := upsertUser (upsertUser st.users u1 u1) u2 u2 }) := by
  simp only [get_or_create_direct_conversation, hp]
  rw [if_neg (not_or.mpr ⟨hcu, hou⟩)]
  simp only [hf]

theorem goc_created (st : DBState) (cu ou u1 u2 : String)
    (hcu : cu ≠ "") (hou : ou ≠ "")
    (hp : normalize_pair cu ou = (u1, u2))
    (hf : findConversation st.conversations u1 u2 = none) :
    get_or_create_direct_conversation st (some cu) (some ou) =
      (.ok st.nextConvId u1 u2,
       { st with users := upsertUser (upsertUser st.users u1 u1) u2 u2,
                 conversations :=
                   st.conversations ++ [⟨st.nextConvId, u1, u2⟩],
                 nextConvId := st.nextConvId + 1 }) := by
  simp only [get_or_create_direct_conversation, hp]
  rw [if_neg (not_or.mpr ⟨hcu, hou⟩)]
  simp only [hf]

theorem findConversation_append_self (convs : List Conversation) (i : Nat)
    (u1 u2 : String) (hf : findConversation convs u1 u2 = none) :
    findConversation (convs ++ [⟨i, u1, u2⟩]) u1 u2 = some ⟨i, u1, u2⟩ := by
  unfold findConversation at hf ⊢
  rw [List.find?_append, hf, Option.none_or]
  simp

/-- A run of `get_or_create_direct_conversation` followed by a second run
with the same arguments: the second run returns the same response and
leaves the state of the first run unchanged. -/
theorem goc_idem (st : DBState) (me other : Option String) :
    get_or_create_direct_conversation
        (get_or_create_direct_conversation st me other).2 me other =
      get_or_create_direct_conversation st me other := by
  rcases me with _ | cu
  · rw [goc_badRequest_left st other]
    exact goc_badRequest_left st other
  · rcases other with _ | ou
    · rw [goc_badRequest_right st (some cu)]
      exact goc_badRequest_right st (some cu)
    · by_cases hv : cu = "" ∨ ou = ""
      · rw [goc_badRequest_blank st cu ou hv]
        exact goc_badRequest_blank st cu ou hv
      · obtain ⟨hcu, hou⟩ := not_or.mp hv
        obtain ⟨u1, u2, hp⟩ : ∃ u1 u2, normalize_pair cu ou = (u1, u2) :=
          ⟨_, _, rfl⟩
        cases hf : findConversation st.conversations u1 u2 with
        | some c =>
            rw [goc_found st cu ou u1 u2 c hcu hou hp hf]
            dsimp only
            rw [goc_found
              { st with users := upsertUser (upsertUser st.users u1 u1) u2 u2 }
              cu ou u1 u2 c hcu hou hp hf]
            dsimp only
            rw [upsertPair_idem]
        | none =>
            rw [goc_created st cu ou u1 u2 hcu hou hp hf]
            dsimp only
            rw [goc_found
              { st with users := upsertUser (upsertUser st.users u1 u1) u2 u2,
                        conversations :=
                          st.conversations ++ [⟨st.nextConvId, u1, u2⟩],
                        nextConvId := st.nextConvId + 1 }
              cu ou u1 u2 ⟨st.nextConvId, u1, u2⟩ hcu hou hp
              (findConversation_append_self st.conversations st.nextConvId
                u1 u2 hf)]
            dsimp only
            rw [upsertPair_idem]

/-- `get_or_create_direct_conversation` preserves the per-pair uniqueness
invariant of the `conversations` table. -/
theorem goc_uniquePairs (st : DBState) (me other : Option String)
    (hu : uniquePairs st.conversations) :
    uniquePairs
      (get_or_create_direct_conversation st me other).2.conversations := by
  rcases me with _ | cu
  · rw [goc_badRequest_left st other]
    exact hu
  · rcases other with _ | ou
    · rw [goc_badRequest_right st (some cu)]
      exact hu
    · by_cases hv : cu = "" ∨ ou = ""
      · rw [goc_badRequest_blank st cu ou hv]
        exact hu
      · obtain ⟨hcu, hou⟩ := not_or.mp hv
        obtain ⟨u1, u2, hp⟩ : ∃ u1 u2, normalize_pair cu ou = (u1, u2) :=
          ⟨_, _, rfl⟩
        cases hf : findConversation st.conversations u1 u2 with
        | some c =>
            rw [goc_found st cu ou u1 u2 c hcu hou hp hf]
            exact hu
        | none =>
            rw [goc_created st cu ou u1 u2 hcu hou hp hf]
            dsimp only
            rw [uniquePairs, List.pairwise_append]
            refine ⟨hu, List.pairwise_singleton _ _, ?_⟩
            intro a ha b hb
            rw [List.mem_singleton] at hb
            subst hb
            unfold findConversation at hf
            rw [List.find?_eq_none] at hf
            have := hf a ha
            simp only [Bool.and_eq_true, beq_iff_eq] at this
            simpa using this

/-! ### Case analysis and invariants for `handle_send_message` -/

/-- Either `handle_send_message` does nothing to the database and emits
nothing (bad conversation id, validation drop, or foreign-key failure), or
it runs the full insert-commit-broadcast path. -/
theorem hsm_cases (st : DBState) (reg : RoomRegistry) (data : SendData) :
    handle_send_message st reg data =
      ⟨[], st, (handle_send_message st reg data).result⟩ ∨
    ∃ cid s, pyInt data.conversation_id = .ok cid ∧
      data.sender_id = some s ∧ s ≠ "" ∧
      pyStrip (data.text.getD "") ≠ "" ∧
      conversationExists st cid = true ∧
      handle_send_message st reg data =
        ⟨[Step.commit (appendMessage st cid s (pyStrip (data.text.getD ""))),
          Step.emit (Event.new_message
            (messagePayload st cid s (pyStrip (data.text.getD "")))
            (conv_room cid) (roomMembers reg (conv_room cid)))],
         appendMessage st cid s (pyStrip (data.text.getD "")),
         Except.ok ()⟩ := by
  cases hci : pyInt data.conversation_id with
  | error e =>
      left
      rw [hsm_of_pyInt_error st reg data e hci]
  | ok cid =>
      cases hs : data.sender_id with
      | none =>
          left
          rw [hsm_drop st reg data cid hci (Or.inl hs)]
      | some s =>
          by_cases hse : s = ""
          · left
            rw [hsm_drop st reg data cid hci (Or.inr (Or.inl (hse ▸ hs)))]
          · by_cases hte : pyStrip (data.text.getD "") = ""
            · left
              rw [hsm_drop st reg data cid hci (Or.inr (Or.inr hte))]
            · cases hex : conversationExists st cid with
              | false =>
                  left
                  rw [hsm_fk st reg data cid s hci hs hse hte hex]
              | true =>
                  right
                  exact ⟨cid, s, rfl, rfl, hse, hte, hex,
                    hsm_success st reg data cid s hci hs hse hte hex⟩

/-- Well-formedness of the `messages` table: ids strictly ascending in
table order and below the serial counter. -/
def dbInv (st : DBState) : Prop :=
  ascendingIds st.messages ∧ ∀ m ∈ st.messages, m.id < st.nextMsgId

theorem initialState_dbInv : dbInv initialState :=
  ⟨List.Pairwise.nil, fun m hm => absurd hm (List.not_mem_nil m)⟩

theorem appendMessage_dbInv (st : DBState) (cid : Int) (s t : String)
    (h : dbInv st) : dbInv (appendMessage st cid s t) := by
  obtain ⟨hasc, hbound⟩ := h
  constructor
  · unfold appendMessage ascendingIds
    dsimp only
    rw [List.pairwise_append]
    exact ⟨hasc, List.pairwise_singleton _ _,
      fun a ha b hb => by
        rw [List.mem_singleton] at hb
        subst hb
        exact hbound a ha⟩
  · intro m hm
    rw [appendMessage] at hm ⊢
    dsimp only at hm ⊢
    rcases List.mem_append.mp hm with hm | hm
    · exact (hbound m hm).trans (Nat.lt_succ_self _)
    · rw [List.mem_singleton] at hm
      subst hm
      exact Nat.lt_succ_self _

/-- `handle_send_message` preserves the `messages`-table invariant. -/
theorem hsm_preserves_dbInv (st : DBState) (reg : RoomRegistry)
    (data : SendData) (h : dbInv st) :
    dbInv (handle_send_message st reg data).db := by
  rcases hsm_cases st reg data with heq | ⟨cid, s, _, _, _, _, _, heq⟩
  · rw [heq]
    exact h
  · rw [heq]
    exact appendMessage_dbInv st cid s _ h

/-! ### Concrete states used to instantiate the theorems -/

/-- A database holding users a and b and their conversation (id 1). -/
def stPair : DBState :=
  { users := [⟨"a", "a"⟩, ⟨"b", "b"⟩], conversations := [⟨1, "a", "b"⟩],
    messages := [], nextConvId := 2, nextMsgId := 1, clock := 0 }

/-- `stPair` after one message from a in conversation 1. -/
def stOneMsg : DBState :=
  { users := [⟨"a", "a"⟩, ⟨"b", "b"⟩], conversations := [⟨1, "a", "b"⟩],
    messages := [⟨1, 1, "a", "hi", 0⟩], nextConvId := 2, nextMsgId := 2,
    clock := 1 }

/-- A registry with one connection (7) joined to the room of
conversation 1. -/
def regPair : RoomRegistry := [(7, "conv_1")]

/-! ### Claims -/

/-- C1: in `handle_send_message`, every broadcast message was already
committed (the commit strictly precedes the `new_message` emit in the
trace, and the emitted payload is a row of the committed state); if
persistence fails — or validation drops the event — nothing is emitted,
and whenever a commit happened the broadcast to all current members of the
conversation room is attempted. -/
theorem send_message_broadcast_after_persist (st : DBState)
    (reg : RoomRegistry) (data : SendData) :
    broadcastAfterPersist (handle_send_message st reg data).trace ∧
    (∀ e : PyErr, (handle_send_message st reg data).result = .error e →
      (handle_send_message st reg data).trace = []) ∧
    (∀ db : DBState,
      Step.commit db ∈ (handle_send_message st reg data).trace →
      ∃ cid p, pyInt data.conversation_id = .ok cid ∧
        Step.emit (Event.new_message p (conv_room cid)
            (roomMembers reg (conv_room cid))) ∈
          (handle_send_message st reg data).trace ∧
        persistedIn p db) := by
  rcases hsm_cases st reg data with heq | ⟨cid, s, hci, _, _, _, _, heq⟩
  · rw [heq]
    refine ⟨?_, fun e _ => rfl, ?_⟩
    · intro n p room conns hn
      simp at hn
    · intro db hdb
      simp at hdb
  · rw [heq]
    refine ⟨?_, ?_, ?_⟩
    · intro n p room conns hn
      match n with
      | 0 => simp at hn
      | 1 =>
          simp only [List.getElem?_cons_succ, List.getElem?_cons_zero,
            Option.some.injEq] at hn
          refine ⟨0, appendMessage st cid s (pyStrip (data.text.getD "")),
            Nat.zero_lt_one, rfl, ?_⟩
          have hp : p = messagePayload st cid s (pyStrip (data.text.getD "")) := by
            cases hn
            rfl
          subst hp
          exact ⟨⟨st.nextMsgId, cid, s, pyStrip (data.text.getD ""), st.clock⟩,
            List.mem_append_right _ (List.mem_singleton_self _),
            rfl, rfl, rfl, rfl⟩
      | n + 2 => simp at hn
    · intro e he
      simp at he
    · intro db hdb
      have hdb' : db = appendMessage st cid s (pyStrip (data.text.getD "")) := by
        simp only [List.mem_cons, List.not_mem_nil, or_false] at hdb
        rcases hdb with hdb | hdb
        · cases hdb
          rfl
        · cases hdb
      subst hdb'
      refine ⟨cid, messagePayload st cid s (pyStrip (data.text.getD "")),
        hci, ?_, ?_⟩
      · exact List.mem_cons_of_mem _ (List.mem_cons_self _ _)
      · exact ⟨⟨st.nextMsgId, cid, s, pyStrip (data.text.getD ""), st.clock⟩,
          List.mem_append_right _ (List.mem_singleton_self _),
          rfl, rfl, rfl, rfl⟩

/-- C1 witness: the theorem instantiated at a concrete successful send in
conversation 1 with connection 7 in the room. -/
theorem send_message_broadcast_after_persist_witness :
    broadcastAfterPersist
      (handle_send_message stPair regPair
        ⟨.vint 1, some "a", some "hi"⟩).trace :=
  (send_message_broadcast_after_persist stPair regPair
    ⟨.vint 1, some "a", some "hi"⟩).1

/-- C2: resolving a direct conversation is order-independent — the whole
route computes the same response and state for `(A,B)` and `(B,A)` — and
`normalize_pair` is commutative with first component at most the second in
the canonical (lexicographic) string order, strictly below it whenever the
two identifiers differ. -/
theorem direct_conversation_commutative_and_ordered (st : DBState)
    (me other : Option String) (a b : String) :
    get_or_create_direct_conversation st me other =
      get_or_create_direct_conversation st other me ∧
    normalize_pair a b = normalize_pair b a ∧
    (normalize_pair a b).1 ≤ (normalize_pair a b).2 ∧
    (a ≠ b → (normalize_pair a b).1 < (normalize_pair a b).2) :=
  ⟨get_or_create_comm st me other, normalize_pair_comm a b,
   normalize_pair_fst_le_snd a b, normalize_pair_fst_lt_snd a b⟩

/-- C2 witness: the theorem at users a and b. -/
theorem direct_conversation_commutative_and_ordered_witness :
    "a" ≠ "b" ∧
    get_or_create_direct_conversation stPair (some "a") (some "b") =
      get_or_create_direct_conversation stPair (some "b") (some "a") ∧
    normalize_pair "a" "b" = normalize_pair "b" "a" ∧
    (normalize_pair "a" "b").1 < (normalize_pair "a" "b").2 := by
  have h := direct_conversation_commutative_and_ordered stPair
    (some "a") (some "b") "a" "b"
  exact ⟨by decide, h.1, h.2.1, h.2.2.2 (by decide)⟩

/-- C3: `resolve_or_create` is idempotent — after one call, a second call
for the same pair in either argument order returns the same response and
leaves the state unchanged (no second row) — and the per-pair uniqueness
invariant of the `conversations` table is preserved. -/
theorem resolve_or_create_idempotent (st : DBState)
    (me other : Option String) (hu : uniquePairs st.conversations) :
    get_or_create_direct_conversation
        (get_or_create_direct_conversation st me other).2 me other =
      get_or_create_direct_conversation st me other ∧
    get_or_create_direct_conversation
        (get_or_create_direct_conversation st me other).2 other me =
      get_or_create_direct_conversation st me other ∧
    uniquePairs
      (get_or_create_direct_conversation st me other).2.conversations :=
  ⟨goc_idem st me other,
   by
     rw [get_or_create_comm _ other me]
     exact goc_idem st me other,
   goc_uniquePairs st me other hu⟩

/-- C3 witness: the theorem at a fresh database and the pair (b, a). -/
theorem resolve_or_create_idempotent_witness :
    uniquePairs initialState.conversations ∧
    get_or_create_direct_conversation
        (get_or_create_direct_conversation initialState
          (some "b") (some "a")).2 (some "b") (some "a") =
      get_or_create_direct_conversation initialState (some "b") (some "a") :=
  ⟨List.Pairwise.nil,
   (resolve_or_create_idempotent initialState (some "b") (some "a")
     List.Pairwise.nil).1⟩

/-- C4: for any conversation and positive limit, the recent-messages read
path (both the REST route and the `chat_history` sent on join) returns a
strictly-ascending-by-id sequence of at most `limit` elements that is a
suffix of the conversation's full append-only history. -/
theorem recent_messages_ordered_bounded_suffix (st : DBState)
    (reg : RoomRegistry) (conn : ConnId) (jdata : JoinData) (cid : Int)
    (n : Nat) (hn : 0 < n) (hinv : ascendingIds st.messages)
    (hj : pyInt jdata.conversation_id = .ok cid) :
    ascendingIds (recentMessages st cid n) ∧
    (recentMessages st cid n).length ≤ n ∧
    recentMessages st cid n <:+ convMessages st cid ∧
    get_messages_core st cid (n : Int) = .ok (recentMessages st cid n) ∧
    ascendingIds (recentMessages st cid 50) ∧
    (recentMessages st cid 50).length ≤ 50 ∧
    recentMessages st cid 50 <:+ convMessages st cid ∧
    handle_join_conversation st reg conn jdata =
      ⟨join_room reg conn (conv_room cid),
       [Event.chat_history cid (recentMessages st cid 50) conn],
       Except.ok ()⟩ :=
  ⟨recentMessages_ascending st cid n hinv,
   recentMessages_length_le st cid n,
   recentMessages_suffix st cid n hinv,
   get_messages_core_eq st cid n,
   recentMessages_ascending st cid 50 hinv,
   recentMessages_length_le st cid 50,
   recentMessages_suffix st cid 50 hinv,
   by simp only [handle_join_conversation, hj]⟩

/-- C4 witness: the theorem at a one-message conversation with limit 1. -/
theorem recent_messages_ordered_bounded_suffix_witness :
    (0 < 1 ∧ ascendingIds stOneMsg.messages ∧
      pyInt (PyVal.vint 1) = .ok 1) ∧
    recentMessages stOneMsg 1 1 <:+ convMessages stOneMsg 1 :=
  ⟨⟨Nat.zero_lt_one, List.pairwise_singleton _ _, rfl⟩,
   (recent_messages_ordered_bounded_suffix stOneMsg [] 3
     ⟨.vint 1, .vstr "b"⟩ 1 1 Nat.zero_lt_one
     (List.pairwise_singleton _ _) rfl).2.2.1⟩

/-- C5 counterexample: a sender id of a single space is blank after trim,
yet `handle_send_message` persists the message and broadcasts it — the
claim's "missing/blank after trim → silent drop" is false because the code
never trims `sender_id`. -/
theorem send_message_blank_sender_not_dropped :
    pyStrip " " = "" ∧
    (handle_send_message stPair regPair
      ⟨.vint 1, some " ", some "hi"⟩).db.messages ≠ stPair.messages ∧
    (handle_send_message stPair regPair
      ⟨.vint 1, some " ", some "hi"⟩).trace ≠ [] := by
  refine ⟨rfl, ?_, ?_⟩ <;> decide

/-- C5 amended: `handle_send_message` silently drops (no row, no emit, no
error) exactly when `sender_id` is absent or the empty string — with no
trimming applied to it — or the text is empty after trimming; conversely,
with a non-empty sender, non-blank trimmed text and an existing
conversation, the message is persisted and broadcast. -/
theorem send_message_validation_amended (st : DBState) (reg : RoomRegistry)
    (data : SendData) (cid : Int)
    (hci : pyInt data.conversation_id = .ok cid) :
    ((data.sender_id = none ∨ data.sender_id = some "" ∨
        pyStrip (data.text.getD "") = "") →
      handle_send_message st reg data = ⟨[], st, .ok ()⟩) ∧
    (∀ s, data.sender_id = some s → s ≠ "" →
      pyStrip (data.text.getD "") ≠ "" →
      conversationExists st cid = true →
      handle_send_message st reg data =
        ⟨[Step.commit (appendMessage st cid s (pyStrip (data.text.getD ""))),
          Step.emit (Event.new_message
            (messagePayload st cid s (pyStrip (data.text.getD "")))
            (conv_room cid) (roomMembers reg (conv_room cid)))],
         appendMessage st cid s (pyStrip (data.text.getD "")),
         Except.ok ()⟩) :=
  ⟨fun h => hsm_drop st reg data cid hci h,
   fun s hs hse hte hex => hsm_success st reg data cid s hci hs hse hte hex⟩

/-- C5 witness: an event with empty sender is silently dropped. -/
theorem send_message_validation_amended_witness :
    pyInt (PyVal.vint 1) = .ok 1 ∧
    handle_send_message stPair regPair ⟨.vint 1, some "", some "hi"⟩ =
      ⟨[], stPair, .ok ()⟩ :=
  ⟨rfl,
   (send_message_validation_amended stPair regPair
     ⟨.vint 1, some "", some "hi"⟩ 1 rfl).1 (Or.inr (Or.inl rfl))⟩

/-- C6 counterexample: with one stored message, `?limit=0` returns the
empty list while the absent-limit default returns the message — `limit=0`
does not fall back to 50. -/
theorem limit_zero_returns_empty :
    get_messages stOneMsg 1 (some "0") = .ok [] ∧
    (convMessages stOneMsg 1).length = 1 ∧
    get_messages stOneMsg 1 none = .ok [⟨1, 1, "a", "hi", 0⟩] := by
  refine ⟨?_, ?_, ?_⟩ <;> decide

/-- C6 amended: an absent `limit` defaults to 50, but a supplied limit is
passed through to the SQL `LIMIT` unclamped: `limit=0` yields the empty
list and a negative limit is a database error. -/
theorem limit_default_and_passthrough (st : DBState) (cid : Nat) (l : Int)
    (hl : l < 0) :
    get_messages st cid none = get_messages_core st (cid : Int) 50 ∧
    get_messages_core st (cid : Int) 0 = .ok [] ∧
    get_messages_core st (cid : Int) l = .error .negativeLimit :=
  ⟨rfl, rfl, by
    unfold get_messages_core
    rw [if_pos hl]⟩

/-- C6 witness: the theorem at the one-message state and limit -1. -/
theorem limit_default_and_passthrough_witness :
    (-1 : Int) < 0 ∧
    get_messages_core stOneMsg (1 : Int) (-1) = .error .negativeLimit :=
  ⟨by decide,
   (limit_default_and_passthrough stOneMsg 1 (-1) (by decide)).2.2⟩

/-- C7 counterexample: `me = other = "a"` is not rejected — the route
answers 200 with a freshly created self-conversation, so the claimed
rejection of equal identifiers is false. -/
theorem self_conversation_allowed :
    (get_or_create_direct_conversation initialState
      (some "a") (some "a")).1 = ConvResult.ok 1 "a" "a" ∧
    (get_or_create_direct_conversation initialState
      (some "a") (some "a")).2.conversations = [⟨1, "a", "a"⟩] := by
  refine ⟨?_, ?_⟩ <;> decide

/-- C7 amended: the route fails with the 400 response when either query
parameter is missing or empty; equal non-empty identifiers are NOT
rejected — a self-conversation is created or returned. -/
theorem direct_conversation_validation_amended (st : DBState)
    (me other : Option String) (a : String) (ha : a ≠ "") :
    ((me = none ∨ other = none ∨ me = some "" ∨ other = some "") →
      get_or_create_direct_conversation st me other =
        (.badRequest "me and other query params are required", st)) ∧
    (∃ cid st', get_or_create_direct_conversation st (some a) (some a) =
      (.ok cid a a, st')) := by
  constructor
  · intro h
    rcases h with h | h | h | h
    · subst h
      exact goc_badRequest_left st other
    · subst h
      exact goc_badRequest_right st me
    · subst h
      rcases other with _ | ou
      · exact goc_badRequest_right st (some "")
      · exact goc_badRequest_blank st "" ou (Or.inl rfl)
    · subst h
      rcases me with _ | cu
      · exact goc_badRequest_left st (some "")
      · exact goc_badRequest_blank st cu "" (Or.inr rfl)
  · cases hf : findConversation st.conversations a a with
    | some c =>
        exact ⟨c.id, _, goc_found st a a a a c ha ha
          (normalize_pair_self a) hf⟩
    | none =>
        exact ⟨st.nextConvId, _, goc_created st a a a a ha ha
          (normalize_pair_self a) hf⟩

/-- C7 witness: empty `me` is rejected, and a self-pair on "a" yields a
conversation. -/
theorem direct_conversation_validation_amended_witness :
    "a" ≠ "" ∧
    get_or_create_direct_conversation initialState (some "") (some "b") =
      (.badRequest "me and other query params are required", initialState) ∧
    (∃ cid st',
      get_or_create_direct_conversation initialState (some "a") (some "a") =
        (.ok cid "a" "a", st')) := by
  have h := direct_conversation_validation_amended initialState
    (some "") (some "b") "a" (by decide)
  exact ⟨by decide, h.1 (Or.inr (Or.inr (Or.inl rfl))), h.2⟩

/-- C8: sending into a conversation id with no `conversations` row makes
the `messages` insert fail its foreign-key check: the transaction aborts
(the database is unchanged, nothing is emitted) and the handler ends in
the error — the store's not-found outcome. -/
theorem send_message_nonexistent_conversation (st : DBState)
    (reg : RoomRegistry) (data : SendData) (cid : Int) (s : String)
    (hci : pyInt data.conversation_id = .ok cid)
    (hs : data.sender_id = some s) (hse : s ≠ "")
    (hte : pyStrip (data.text.getD "") ≠ "")
    (hnex : conversationExists st cid = false) :
    handle_send_message st reg data = ⟨[], st, .error .fkViolation⟩ :=
  hsm_fk st reg data cid s hci hs hse hte hnex

/-- C8 witness: sending to the nonexistent conversation 99. -/
theorem send_message_nonexistent_conversation_witness :
    (pyInt (PyVal.vint 99) = .ok 99 ∧ " a" ≠ "" ∧ pyStrip "hi" ≠ "" ∧
      conversationExists stPair 99 = false) ∧
    handle_send_message stPair regPair ⟨.vint 99, some " a", some "hi"⟩ =
      ⟨[], stPair, .error .fkViolation⟩ :=
  ⟨⟨rfl, by decide, by decide, by decide⟩,
   send_message_nonexistent_conversation stPair regPair
     ⟨.vint 99, some " a", some "hi"⟩ 99 " a" rfl rfl (by decide)
     (by decide) (by decide)⟩

/-- C9: `handle_send_message` trims the text but not the sender: a sender
id that is non-empty yet whitespace-only (blank after trimming) together
with non-blank text is persisted and broadcast, not dropped. -/
theorem send_message_whitespace_sender_persisted (st : DBState)
    (reg : RoomRegistry) (data : SendData) (cid : Int) (s : String)
    (hci : pyInt data.conversation_id = .ok cid)
    (hs : data.sender_id = some s) (hse : s ≠ "") (hws : pyStrip s = "")
    (hte : pyStrip (data.text.getD "") ≠ "")
    (hex : conversationExists st cid = true) :
    handle_send_message st reg data =
      ⟨[Step.commit (appendMessage st cid s (pyStrip (data.text.getD ""))),
        Step.emit (Event.new_message
          (messagePayload st cid s (pyStrip (data.text.getD "")))
          (conv_room cid) (roomMembers reg (conv_room cid)))],
       appendMessage st cid s (pyStrip (data.text.getD "")),
       Except.ok ()⟩ ∧
    (appendMessage st cid s (pyStrip (data.text.getD ""))).messages =
      st.messages ++
        [⟨st.nextMsgId, cid, s, pyStrip (data.text.getD ""), st.clock⟩] :=
  ⟨hsm_success st reg data cid s hci hs hse hte hex, rfl⟩

/-- C9 witness: a single-space sender with text "hi" is persisted and
broadcast to the member of room conv_1. -/
theorem send_message_whitespace_sender_persisted_witness :
    (" " ≠ "" ∧ pyStrip " " = "" ∧ pyStrip "hi" ≠ "" ∧
      conversationExists stPair 1 = true) ∧
    (appendMessage stPair 1 " " (pyStrip "hi")).messages =
      stPair.messages ++ [⟨1, 1, " ", "hi", 0⟩] :=
  ⟨⟨by decide, rfl, by decide, by decide⟩,
   (send_message_whitespace_sender_persisted stPair regPair
     ⟨.vint 1, some " ", some "hi"⟩ 1 " " rfl rfl (by decide) rfl
     (by decide) (by decide)).2⟩

/-- C10: both event handlers run `int(...)` on `conversation_id` before
any validation: a missing (`None`) or unconvertible value raises
(`TypeError`/`ValueError`), leaving the registry and database untouched
and emitting nothing — the event is not silently dropped and no room is
joined. -/
theorem handlers_raise_on_bad_conversation_id (st : DBState)
    (reg : RoomRegistry) (conn : ConnId) (jdata : JoinData)
    (sdata : SendData) (e1 e2 : PyErr)
    (hj : pyInt jdata.conversation_id = .error e1)
    (hs : pyInt sdata.conversation_id = .error e2) :
    handle_join_conversation st reg conn jdata = ⟨reg, [], .error e1⟩ ∧
    handle_send_message st reg sdata = ⟨[], st, .error e2⟩ ∧
    pyInt PyVal.vnone = .error .typeError ∧
    pyInt (.vstr "abc") = .error .valueError :=
  ⟨by simp only [handle_join_conversation, hj],
   hsm_of_pyInt_error st reg sdata e2 hs, rfl, by decide⟩

/-- C10 witness: a join without `conversation_id` and a send with a
non-numeric one both raise. -/
theorem handlers_raise_on_bad_conversation_id_witness :
    (pyInt PyVal.vnone = .error .typeError ∧
      pyInt (.vstr "xyz") = .error .valueError) ∧
    handle_join_conversation stPair regPair 3 ⟨.vnone, .vstr "u"⟩ =
      ⟨regPair, [], .error .typeError⟩ ∧
    handle_send_message stPair regPair ⟨.vstr "xyz", some "a", some "hi"⟩ =
      ⟨[], stPair, .error .valueError⟩ := by
  have h := handlers_raise_on_bad_conversation_id stPair regPair 3
    ⟨.vnone, .vstr "u"⟩ ⟨.vstr "xyz", some "a", some "hi"⟩
    .typeError .valueError rfl (by decide)
  exact ⟨⟨rfl, by decide⟩, h.1, h.2.1⟩

end MessagingService
